import Mathlib

/-!
# Verification of the async_upnp_media_server transcode cache engine

Shallow embedding of the core components of the repository:

* `media_server/audio_extract.py` — the transcode cache engine:
  `AudioExtractor.get_path`, `AudioExtractor.extract_audio`,
  `AudioExtractor.run_cleanup`, `AudioExtractor.probe`.
* `media_server/server.py` — the range delivery handler:
  `MediaServerDevice.handle_media`, `MediaServerDevice.get_range`.

Python strings are Lean `String`s, python ints are `Int`/`Nat` (no overflow in
CPython), the sqlite `media` table is an association list keyed by source path,
the filesystem is a list of existing file names plus a list of `os.utime`
touches, and the asyncio single-threaded cooperative scheduler is an explicit
step function over per-task program counters whose states correspond to the
`await` suspension points of the source.
-/

namespace MediaServer

/-! ## Range parsing (`MediaServerDevice.get_range`, server.py lines 124-136)

The source applies `re.match(r'bytes=(?P<start>\d+)-(?P<end>\d+)?', byte_range)`.
`re.match` anchors at the start of the string only: it succeeds whenever the
header *begins* with `bytes=`, one or more digits, and a `-`; the optional end
group greedily takes the digits that follow, and any trailing text (such as
further ranges of a multi-range header) is ignored.  Both `\d+` groups are
deterministic here because each is delimited by a non-digit, so the prefix
match is modelled by `takeWhile Char.isDigit`. -/

/-- `int()` of a nonempty decimal digit string. -/
def natFromDigits (ds : List Char) : Nat :=
  ds.foldl (fun n c => n * 10 + (c.toNat - '0'.toNat)) 0

/-- Match a literal, returning the remainder. -/
def dropLit : List Char → List Char → Option (List Char)
  | [], l => some l
  | _ :: _, [] => none
  | p :: ps, c :: cs => if p = c then dropLit ps cs else none

/-- The regex body after the literal `bytes=`: one or more digits (the
mandatory start group), a `-`, and an optional greedy digit group for the
end. -/
def parseAfterBytesEq (rest : List Char) : Bool × Nat × Option Nat :=
  match rest.takeWhile Char.isDigit, rest.dropWhile Char.isDigit with
  | _ :: _, '-' :: rest3 =>
    let es := rest3.takeWhile Char.isDigit
    (true, natFromDigits (rest.takeWhile Char.isDigit),
     if es.isEmpty then none else some (natFromDigits es))
  | _, _ => (false, 0, none)

/-- `MediaServerDevice.get_range`: parse the optional `Range` header into
`(part, start, end)`.  `none` models an absent (or falsy) header value, for
which `re.match` is never attempted. -/
def get_range (byteRange : Option String) : Bool × Nat × Option Nat :=
  match byteRange with
  | none => (false, 0, none)
  | some s =>
    match dropLit "bytes=".toList s.toList with
    | none => (false, 0, none)
    | some rest => parseAfterBytesEq rest

/-- The response fields computed by `handle_media` that depend on the range:
status code, `Content-Length` header string, optional `Content-Range` header
string. -/
structure RangeHeaders where
  status : Nat
  contentLength : String
  contentRange : Option String
deriving DecidableEq, Repr

/-- The range portion of `MediaServerDevice.handle_media` (server.py lines
104-121): `part, start, end = get_range(headers)`, `end = item.size if end is
None else end`, `size = str(end - start)`, `Content-Length` is `size`,
`Content-Range` (present only on a partial response) is
`f'bytes {start}-{end-1}/{size}'`, and the status is 206 when `part` else
200. -/
def rangeResponse (rangeHeader : Option String) (itemSize : Nat) : RangeHeaders :=
  let pse := get_range rangeHeader
  let part := pse.1
  let start : Nat := pse.2.1
  let e : Int :=
    match pse.2.2 with
    | none => (itemSize : Int)
    | some n => (n : Int)
  let size : Int := e - (start : Int)
  { status := if part then 206 else 200
    contentLength := toString size
    contentRange :=
      if part then
        some ("bytes " ++ toString start ++ "-" ++ toString (e - 1) ++ "/" ++ toString size)
      else none }

/-- The single-range form after the literal `bytes=`: one or more digits then
a `-`. -/
def formAfterBytesEq (rest : List Char) : Bool :=
  !(rest.takeWhile Char.isDigit).isEmpty &&
    (rest.dropWhile Char.isDigit).head? == some '-'

/-- Modelled from the spec's amended reading of `get_range`: a header value
begins with the single-range form when it starts with `bytes=`, then one or
more digits, then a `-`. -/
def beginsSingleRangeForm (s : String) : Bool :=
  match dropLit "bytes=".toList s.toList with
  | none => false
  | some rest => formAfterBytesEq rest

/-! ## Cache eviction (`AudioExtractor.run_cleanup`, audio_extract.py lines 92-99)

```python
paths = sorted(os.scandir(self._cache_dir), key=lambda x: x.stat().st_mtime)
while sum(_.stat().st_size for _ in paths) > self._max_cache_size:
    item = paths.pop()
    if item.stat().st_mtime > time.time() - 600:
        break
    os.unlink(item.path)
```

`sorted` orders ascending by mtime and `list.pop()` with no argument removes
the *last* element, i.e. the largest mtime.  We model a directory entry by
name, size and mtime, `sorted` by a stable insertion sort, and the `while`
loop by structural recursion over the reversed (descending) list, returning
the files that remain on disk. -/

/-- A cache-directory entry as seen by `os.scandir`: name, `st_size`,
`st_mtime`. -/
structure CFile where
  name : String
  size : Nat
  mtime : Nat
deriving DecidableEq, Repr

/-- `sum(_.stat().st_size for _ in paths)`. -/
def totalSize (l : List CFile) : Nat :=
  (l.map CFile.size).sum

/-- Insert keeping ascending mtime order; equal keys keep original order
(python's `sorted` is stable). -/
def insertByMtime (f : CFile) : List CFile → List CFile
  | [] => [f]
  | g :: gs => if f.mtime ≤ g.mtime then f :: g :: gs else g :: insertByMtime f gs

/-- `sorted(..., key=lambda x: x.stat().st_mtime)`. -/
def sortByMtime : List CFile → List CFile
  | [] => []
  | f :: fs => insertByMtime f (sortByMtime fs)

/-- The `while` loop of `run_cleanup`, acting on the remaining candidates in
*descending* mtime order (the head is what `paths.pop()` returns next).
Returns the files still on disk.  The grace test
`item.stat().st_mtime > time.time() - 600` is `now < mtime + 600` over the
integers; on `break` the popped file stays on disk. -/
def cleanupLoop (now maxSize : Nat) : List CFile → List CFile
  | [] => []
  | f :: rest =>
    if totalSize (f :: rest) ≤ maxSize then f :: rest
    else if now < f.mtime + 600 then f :: rest
    else cleanupLoop now maxSize rest

/-- `AudioExtractor.run_cleanup`: one sweep over the cache directory, given the
current time, the configured maximum size, and the directory contents.
Returns the files remaining on disk (in ascending mtime order). -/
def run_cleanup (now maxSize : Nat) (files : List CFile) : List CFile :=
  (cleanupLoop now maxSize (sortByMtime files).reverse).reverse

/-! ## Probing (`AudioExtractor.probe`, audio_extract.py lines 101-128)

The probe parses ffprobe's diagnostic output with
`re.findall(r'Stream #(\d+:\d+)([^:]*): Audio: (\S+)', stderr, re.MULTILINE)`.
Every variable-length piece of the pattern is delimited by a character it
cannot itself contain, so the greedy match is deterministic:
`(\d+:\d+)` is digits-colon-digits, `([^:]*)` runs to the first `:` after the
stream id, and `(\S+)` runs to the first whitespace.  `re.findall` scans left
to right, skipping one character on failure and continuing after the end of
each (nonempty) match. -/

/-- One group tuple of the stream regex: stream id (`0:1`), annotation
(possibly empty), codec token. -/
structure StreamMatch where
  sid : String
  annot : String
  codec : String
deriving DecidableEq, Repr

/-- Try to match `Stream #(\d+:\d+)([^:]*): Audio: (\S+)` at the head of the
input; on success return the three groups and the remainder after the match. -/
def matchStreamAt (l : List Char) : Option (StreamMatch × List Char) :=
  match dropLit "Stream #".toList l with
  | none => none
  | some r0 =>
    let d1 := r0.takeWhile Char.isDigit
    if d1.isEmpty then none
    else
      match r0.dropWhile Char.isDigit with
      | ':' :: r1 =>
        let d2 := r1.takeWhile Char.isDigit
        if d2.isEmpty then none
        else
          let r2 := r1.dropWhile Char.isDigit
          let ann := r2.takeWhile (fun c => c ≠ ':')
          match dropLit ": Audio: ".toList (r2.dropWhile (fun c => c ≠ ':')) with
          | none => none
          | some r3 =>
            let codec := r3.takeWhile (fun c => !c.isWhitespace)
            if codec.isEmpty then none
            else
              some (⟨String.mk d1 ++ ":" ++ String.mk d2, String.mk ann, String.mk codec⟩,
                    r3.dropWhile (fun c => !c.isWhitespace))
      | _ => none

/-- `re.findall` scan, with fuel (one unit per input position). -/
def findAllAux : Nat → List Char → List StreamMatch
  | 0, _ => []
  | _ + 1, [] => []
  | fuel + 1, c :: cs =>
    match matchStreamAt (c :: cs) with
    | some (m, rest) => m :: findAllAux fuel rest
    | none => findAllAux fuel cs

/-- All audio-stream matches of the probe regex in the diagnostic text. -/
def findAudioStreams (stderrText : String) : List StreamMatch :=
  findAllAux (stderrText.length + 1) stderrText.toList

/-- `'eng' in _m[1]` — python substring containment. -/
def containsEng (annot : String) : Bool :=
  annot.toList.tails.any (fun t => "eng".toList.isPrefixOf t)

/-- The stream-selection expression of `probe` (audio_extract.py lines
117-120):

```python
next((_m for _m in matches if 'eng' in _m[1]), None) or
next((_m for _m in matches if not _m[1]), None) or
matches[0]
```

guarded by `matches and ...` (a group tuple is always truthy, so the `or`
chain falls through exactly when the corresponding `next` returns `None`). -/
def selectStream : List StreamMatch → Option StreamMatch
  | [] => none
  | m :: ms =>
    some (match (m :: ms).find? (fun x => containsEng x.annot) with
      | some r => r
      | none =>
        match (m :: ms).find? (fun x => x.annot = "") with
        | some r => r
        | none => m)

/-- `_match[2].replace(',', '')`. -/
def stripCommas (s : String) : String :=
  String.mk (s.toList.filter (fun c => c ≠ ','))

/-- A row of the sqlite `media` table (audio_extract.py `Item`). -/
structure Item where
  mediatype : String
  stream : String
  cache : Option String
deriving DecidableEq, Repr

/-- `INSERT OR REPLACE INTO media (mediatype, stream, path) VALUES (?, ?, ?)`:
replaces the whole row, so the `cache` column of a replaced row becomes NULL. -/
def insertOrReplace (p mt sid : String) : List (String × Item) → List (String × Item)
  | [] => [(p, ⟨mt, sid, none⟩)]
  | (q, it) :: rest =>
    if q = p then (p, ⟨mt, sid, none⟩) :: rest else (q, it) :: insertOrReplace p mt sid rest

/-- Outcome of a python call: a returned value or a raised exception. -/
inductive PyResult (α : Type) where
  | ok (a : α)
  | exn (e : String)
deriving DecidableEq, Repr

/-- `AudioExtractor.probe`, given the current `media` table, the ffprobe exit
code and its captured stderr text.  Returns the python outcome and the new
table.  When the table already has a row the subprocess never runs (the `rc`
and `stderrText` arguments are ignored).  In the no-audio branch the function
executes `return audio_type` with `audio_type` never assigned, which raises
`UnboundLocalError`. -/
def probe (db : List (String × Item)) (path : String) (rc : Int) (stderrText : String) :
    PyResult (Option String) × List (String × Item) :=
  match db.lookup path with
  | some item => (.ok (some item.mediatype), db)
  | none =>
    if rc ≠ 0 then (.ok none, db)
    else
      match selectStream (findAudioStreams stderrText) with
      | some m =>
        let audioType := stripCommas m.codec
        (.ok (some audioType), insertOrReplace path audioType m.sid db)
      | none => (.exn "UnboundLocalError", db)

/-! ## The cache engine state machine
(`AudioExtractor.get_path` / `extract_audio`, audio_extract.py lines 48-90)

asyncio runs tasks cooperatively on one thread; a task only yields control at
an `await` that actually suspends.  In `get_path`/`extract_audio` the
suspension points are `await self._running[path].wait()` (only when the event
is not yet set — a set `asyncio.Event` returns without yielding) and the
remux subprocess (`await asyncio.create_subprocess_exec` / `await
proc.wait()`).  We model one source path `p` with its deterministic cache-file
target `cf` (the sha256-derived name of `_get_cache_file` is an opaque
constant here), and a task as a program counter at those suspension points.

The shared world carries the sqlite table, the `self._running` map (path →
whether its `asyncio.Event` is set), the set of existing cache files, the
`os.utime` touches, and the number of remux subprocesses launched.  The lazy
re-arming of the cleanup task at the top of `extract_audio` does not touch any
of this state and is elided. -/

/-- Shared state of the extractor. -/
structure World where
  db : List (String × Item)
  running : List (String × Bool)
  files : List String
  touched : List String
  subprocCount : Nat
deriving DecidableEq, Repr

/-- `self._running[path] = v` (insert or overwrite). -/
def setAssoc (k : String) (v : Bool) : List (String × Bool) → List (String × Bool)
  | [] => [(k, v)]
  | (k2, v2) :: rest => if k2 = k then (k, v) :: rest else (k2, v2) :: setAssoc k v rest

/-- `del self._running[path]`. -/
def eraseAssoc (k : String) : List (String × Bool) → List (String × Bool)
  | [] => []
  | (k2, v2) :: rest => if k2 = k then rest else (k2, v2) :: eraseAssoc k rest

/-- `UPDATE media SET cache = ? WHERE path = ?`. -/
def setCache (p cf : String) : List (String × Item) → List (String × Item)
  | [] => []
  | (q, it) :: rest =>
    if q = p then (q, { it with cache := some cf }) :: rest else (q, it) :: setCache p cf rest

/-- `os.rename(tmpname, cache_file)`: the target now exists. -/
def insertFile (cf : String) (files : List String) : List String :=
  if files.contains cf then files else cf :: files

/-- Program counter of one `get_path` task, at the suspension points of the
source. -/
inductive TState where
  | ready
  | waitEvt (item : Item)
  | runProc
  | finished (res : Option String)
  | errored
deriving DecidableEq, Repr

/-- The tail of `extract_audio` once `await proc.wait()` has returned
(audio_extract.py lines 82-90), given whether the remux produced its output
file: on success rename the temp file to `cf`, record the cache path in the
table, set the event and return `cf`; otherwise fall through to `return
None` — the event is *not* set and nothing is written. -/
def finishExtract (p cf : String) (ok : Bool) (w : World) : World × Option String :=
  if ok then
    ({ w with
        files := insertFile cf w.files
        db := setCache p cf w.db
        running := setAssoc p true w.running }, some cf)
  else (w, none)

/-- The head of `extract_audio` up to launching the remux subprocess
(audio_extract.py lines 74-81): register a fresh unset event under `p` and
start the subprocess, then suspend. -/
def startExtract (p : String) (w : World) : World × TState :=
  ({ w with
      running := setAssoc p false w.running
      subprocCount := w.subprocCount + 1 }, .runProc)

/-- `get_path` from `cache_path = item.cache` onward (audio_extract.py lines
58-63): if the recorded cache file exists, `os.utime` it and return it,
otherwise call `extract_audio`.  `not cache_path` treats both a NULL column
and an empty string as missing. -/
def afterCacheCheck (p : String) (w : World) (item : Item) : World × TState :=
  match item.cache with
  | some cp =>
    if cp != "" && w.files.contains cp then
      ({ w with touched := cp :: w.touched }, .finished (some cp))
    else startExtract p w
  | none => startExtract p w

/-- Run one task from its current program counter to its next suspension
point (or to completion).  `ok` is whether a remux subprocess, once awaited,
has produced its output file.

* `.ready` — top of `get_path`: read the `Item` row (a missing row fails the
  `assert item`); if `path in self._running` with the event unset, suspend in
  `wait()`; with the event already set, `wait()` returns immediately and the
  entry is deleted; then run the cache check.
* `.waitEvt item` — suspended in `wait()` holding the *pre-wait* row snapshot;
  runnable only once the event is set, whereupon the task deletes the entry
  and re-checks the stale snapshot.
* `.runProc` — suspended in `await proc.wait()`; stepping it means the
  subprocess has exited: finish `extract_audio`, and back in `get_path`
  `assert cache_path` (an absent result raises `AssertionError`), `os.utime`
  and return. -/
def stepTask (p cf : String) (ok : Bool) (w : World) : TState → World × TState
  | .ready =>
    match w.db.lookup p with
    | none => (w, .errored)
    | some item =>
      match w.running.lookup p with
      | some true => afterCacheCheck p { w with running := eraseAssoc p w.running } item
      | some false => (w, .waitEvt item)
      | none => afterCacheCheck p w item
  | .waitEvt item =>
    if w.running.lookup p = some true then
      afterCacheCheck p { w with running := eraseAssoc p w.running } item
    else (w, .waitEvt item)
  | .runProc =>
    match finishExtract p cf ok w with
    | (w1, some c) => ({ w1 with touched := c :: w1.touched }, .finished (some c))
    | (w1, none) => (w1, .errored)
  | .finished r => (w, .finished r)
  | .errored => (w, .errored)

/-- Run a list of tasks under an explicit cooperative schedule (a list of task
indices). -/
def runSched (p cf : String) (ok : Bool) : List Nat → World → List TState → World × List TState
  | [], w, ts => (w, ts)
  | i :: rest, w, ts =>
    match ts.get? i with
    | none => runSched p cf ok rest w ts
    | some t =>
      let wt := stepTask p cf ok w t
      runSched p cf ok rest wt.1 (ts.set i wt.2)

/-- `n` sequential (non-overlapping) `get_path` calls for `p`; each runs from
`.ready` for one step, which completes the call whenever it neither waits nor
extracts.  Returns the final world and each call's task state. -/
def repeatGetPath (p cf : String) (ok : Bool) : Nat → World → World × List TState
  | 0, w => (w, [])
  | n + 1, w =>
    let wt := stepTask p cf ok w .ready
    let rec' := repeatGetPath p cf ok n wt.1
    (rec'.1, wt.2 :: rec'.2)

/-! ## The media request handler
(`MediaServerDevice.handle_media`, server.py lines 74-122) -/

/-- The fields of a catalog item that `handle_media` reads: whether it is an
`AudioItem` (`isinstance` check), its cover path, its declared size and mime
type. -/
structure CatItem where
  isAudioItem : Bool
  cover : Option String
  size : Nat
  mime_type : Option String
deriving DecidableEq, Repr

/-- The possible responses of `handle_media`. -/
inductive MediaResp where
  | notFound
  | okHead
  | fileResp (path : String)
  | media (h : RangeHeaders) (mime : String)
deriving DecidableEq, Repr

/-- `MediaServerDevice.handle_media`, with the engine behind
`item.get_path()` abstracted as a state transformer `get_path_item` over an
arbitrary engine-state type `σ` (covering the metadata store, the in-flight
job map and the cache directory).  Checks happen in source order: unknown
object → 404; not an `AudioItem` → 404; `HEAD` → 200 immediately; the
`cover` media type serves the cover file; only then is the playable path
resolved, after which a falsy path or mime type is 404 and otherwise the
range-dependent response is produced. -/
def handle_media {σ : Type} (method mediaType : String) (rangeHeader : Option String)
    (item : Option CatItem) (get_path_item : σ → Option String × σ) (st : σ) :
    MediaResp × σ :=
  match item with
  | none => (.notFound, st)
  | some it =>
    if !it.isAudioItem then (.notFound, st)
    else if method = "HEAD" then (.okHead, st)
    else if mediaType = "cover" then
      match it.cover with
      | some c => (.fileResp c, st)
      | none => (.notFound, st)
    else
      let ps := get_path_item st
      match ps.1 with
      | none => (.notFound, ps.2)
      | some _ =>
        match it.mime_type with
        | none => (.notFound, ps.2)
        | some mt => (.media (rangeResponse rangeHeader it.size) mt, ps.2)

/-! ## Concrete scenario constants -/

/-- A probed-but-uncached source: the `media` table has a row for
`/media/movie.mkv` with `cache` NULL, no extraction in flight, empty cache
directory. -/
def uncachedWorld : World :=
  ⟨[("/media/movie.mkv", ⟨"aac", "0:1", none⟩)], [], [], [], 0⟩

/-- The deterministic cache-file name `_get_cache_file` computes for
`/media/movie.mkv` (basename, 8-hex digest of the directory, media type). -/
def movieCacheFile : String :=
  "movie.mkv.7a3bc9d2.aac"

/-- The same source once its cache path is recorded and the file exists. -/
def cachedWorld : World :=
  ⟨[("/media/movie.mkv", ⟨"aac", "0:1", some movieCacheFile⟩)], [], [movieCacheFile], [], 0⟩

/-- Probe matches for diagnostic output listing `0:1 (eng)` and `0:2 (fre)`
audio streams. -/
def engFreStreams : List StreamMatch :=
  findAudioStreams "  Stream #0:1(eng): Audio: aac\n  Stream #0:2(fre): Audio: ac3"

/-- Probe matches for `0:1 (fre)` and an annotation-free `0:2`. -/
def freNoneStreams : List StreamMatch :=
  findAudioStreams "  Stream #0:1(fre): Audio: aac\n  Stream #0:2: Audio: mp3"

/-- Probe matches for a single `0:1 (fre)` audio stream. -/
def freOnlyStreams : List StreamMatch :=
  findAudioStreams "  Stream #0:1(fre): Audio: aac"

/-! ## Helper lemmas -/

theorem mem_insertByMtime {a f : CFile} {l : List CFile} :
    a ∈ insertByMtime f l ↔ a = f ∨ a ∈ l := by
  induction l with
  | nil => simp [insertByMtime]
  | cons g gs ih =>
    by_cases h : f.mtime ≤ g.mtime
    · simp [insertByMtime, h]
    · simp [insertByMtime, h, ih]
      tauto

theorem mem_sortByMtime {a : CFile} {l : List CFile} :
    a ∈ sortByMtime l ↔ a ∈ l := by
  induction l with
  | nil => simp [sortByMtime]
  | cons f fs ih => simp [sortByMtime, mem_insertByMtime, ih]

theorem mem_cleanupLoop_of_grace {now maxSize : Nat} {f : CFile} {l : List CFile}
    (hf : f ∈ l) (hg : now < f.mtime + 600) : f ∈ cleanupLoop now maxSize l := by
  induction l with
  | nil => cases hf
  | cons g rest ih =>
    rw [cleanupLoop]
    by_cases h1 : totalSize (g :: rest) ≤ maxSize
    · simpa [h1] using hf
    · by_cases h2 : now < g.mtime + 600
      · simpa [h1, h2] using hf
      · have hne : f ≠ g := fun he => h2 (he ▸ hg)
        have : f ∈ rest := by
          rcases List.mem_cons.mp hf with h | h
          · exact absurd h hne
          · exact h
        simpa [h1, h2] using ih this

theorem parseAfterBytesEq_spec (rest : List Char) :
    (parseAfterBytesEq rest).1 = formAfterBytesEq rest ∧
    (formAfterBytesEq rest = false → parseAfterBytesEq rest = (false, 0, none)) := by
  unfold parseAfterBytesEq formAfterBytesEq
  cases htw : rest.takeWhile Char.isDigit with
  | nil => simp
  | cons d ds =>
    cases hdw : rest.dropWhile Char.isDigit with
    | nil => simp
    | cons c t =>
      by_cases hc : c = '-'
      · subst hc
        simp
      · have hbeq : (c == '-') = false := by simpa using hc
        have hsome : (some c == some '-') = (c == '-') := rfl
        constructor
        · split <;> simp_all
        · intro hfa
          split <;> simp_all

/-! ## Claim theorems -/

/-- C1 (violated by the code): two concurrent `get_path` calls for the same
probed, uncached source path — the second arriving while the first's remux
subprocess is running, both remuxes succeeding — launch **two** remux
subprocesses, not one.  The waiter re-checks the `Item` row it read *before*
waiting, whose `cache` column is still NULL, and extracts again.  Both calls
do return the same cache path. -/
theorem c1_single_flight_violated :
    (runSched "/media/movie.mkv" movieCacheFile true [0, 1, 0, 1, 1]
        uncachedWorld [.ready, .ready]).1.subprocCount = 2 ∧
    (runSched "/media/movie.mkv" movieCacheFile true [0, 1, 0, 1, 1]
        uncachedWorld [.ready, .ready]).2 =
      [.finished (some movieCacheFile), .finished (some movieCacheFile)] := by
  decide

/-- C2 (violated by the code): a cache directory holding `old.aac` (size 600,
mtime 0) and `new.aac` (size 600, mtime 1000), budget 1000, now 10000 (both
files far older than the grace window).  `run_cleanup` deletes the
*most*-recently-touched `new.aac` (the ascending sort is popped from its
recent end), keeping `old.aac`; the claim requires the least-recently-touched
`old.aac` to be removed and `new.aac` kept. -/
theorem c2_eviction_order_inverted :
    run_cleanup 10000 1000 [⟨"old.aac", 600, 0⟩, ⟨"new.aac", 600, 1000⟩] =
      [⟨"old.aac", 600, 0⟩] ∧
    run_cleanup 10000 1000 [⟨"old.aac", 600, 0⟩, ⟨"new.aac", 600, 1000⟩] ≠
      [⟨"new.aac", 600, 1000⟩] := by
  decide

/-- C3 counterexample: for `Range: bytes=100-199` on a 1000-byte resource the
code answers 206 with `Content-Length: 99` (the claim requires
`end-start+1 = 100`) and `Content-Range: bytes 100-198/99` (the claim requires
`bytes 100-199/1000`). -/
theorem c3_counterexample :
    rangeResponse (some "bytes=100-199") 1000 =
      ⟨206, "99", some "bytes 100-198/99"⟩ ∧
    (rangeResponse (some "bytes=100-199") 1000).contentLength ≠ "100" ∧
    (rangeResponse (some "bytes=100-199") 1000).contentRange ≠
      some "bytes 100-199/1000" := by
  decide

/-- C3 amended: for every request whose `Range` header parses as a valid
single range, the response has status 206 with `Content-Length` equal to
`end - start` (not `end - start + 1`) and `Content-Range` equal to
`bytes start-(end-1)/(end-start)` (the code prints the exclusive bound minus
one and the span length, not the resource size); when the header omits the
end position, `end` defaults to the resource size (not size minus one). -/
theorem c3_amended_range_response (h : Option String) (total st : Nat) :
    (∀ e : Nat, get_range h = (true, st, some e) →
      rangeResponse h total =
        ⟨206, toString ((e : Int) - (st : Int)),
         some ("bytes " ++ toString st ++ "-" ++ toString ((e : Int) - 1) ++ "/" ++
               toString ((e : Int) - (st : Int)))⟩) ∧
    (get_range h = (true, st, none) →
      rangeResponse h total =
        ⟨206, toString ((total : Int) - (st : Int)),
         some ("bytes " ++ toString st ++ "-" ++ toString ((total : Int) - 1) ++ "/" ++
               toString ((total : Int) - (st : Int)))⟩) := by
  constructor
  · intro e hp
    simp [rangeResponse, hp]
  · intro hp
    simp [rangeResponse, hp]

/-- C3 amended, witnessed at `bytes=100-199` on a 1000-byte resource. -/
theorem c3_amended_witness :
    rangeResponse (some "bytes=100-199") 1000 =
      ⟨206, toString ((199 : Int) - (100 : Int)),
       some ("bytes " ++ toString (100 : Nat) ++ "-" ++ toString ((199 : Int) - 1) ++ "/" ++
             toString ((199 : Int) - (100 : Int)))⟩ :=
  (c3_amended_range_response (some "bytes=100-199") 1000 100).1 199 (by decide)

/-- C4: a cache file touched within the last 600 seconds is never deleted by a
cleanup sweep, whatever the budget; and when the sweep's next candidate is
within the grace window it stops entirely, removing nothing further. -/
theorem c4_grace_protection (now maxSize : Nat) (files : List CFile) (f : CFile)
    (hf : f ∈ files) (hg : now < f.mtime + 600) :
    f ∈ run_cleanup now maxSize files ∧
    ∀ g rest, now < g.mtime + 600 → cleanupLoop now maxSize (g :: rest) = g :: rest := by
  constructor
  · have h1 : f ∈ (sortByMtime files).reverse :=
      List.mem_reverse.mpr (mem_sortByMtime.mpr hf)
    exact List.mem_reverse.mpr (mem_cleanupLoop_of_grace h1 hg)
  · intro g rest hge
    rw [cleanupLoop]
    by_cases h1 : totalSize (g :: rest) ≤ maxSize
    · simp [h1]
    · simp [h1, hge]

/-- C4, witnessed on a one-file directory over budget whose file was touched
100 seconds before the sweep. -/
theorem c4_grace_witness :
    (⟨"fresh.aac", 1, 100⟩ : CFile) ∈ run_cleanup 150 0 [⟨"fresh.aac", 1, 100⟩] :=
  (c4_grace_protection 150 0 [⟨"fresh.aac", 1, 100⟩] ⟨"fresh.aac", 1, 100⟩
    (by decide) (by decide)).1

/-- C5 counterexample: the multi-range header `bytes=0-99,200-299` is *not*
treated as "no range": `re.match` anchors only at the start of the value, so
the first range matches and the request is served as the single range
0-99 (status 206), not as the whole resource. -/
theorem c5_counterexample :
    get_range (some "bytes=0-99,200-299") ≠ (false, 0, none) ∧
    get_range (some "bytes=0-99,200-299") = (true, 0, some 99) := by
  decide

/-- C5 amended: `get_range` treats a header value as "no range requested"
exactly when the value does not *begin* with the single-range form
`bytes=<digits>-`; a value that does begin so is parsed as that first range
even if further ranges or other text follow. -/
theorem c5_range_fallback (s : String) :
    (get_range (some s)).1 = beginsSingleRangeForm s ∧
    (beginsSingleRangeForm s = false → get_range (some s) = (false, 0, none)) := by
  have hg : get_range (some s) =
      (match dropLit "bytes=".toList s.toList with
       | none => ((false, 0, none) : Bool × Nat × Option Nat)
       | some rest => parseAfterBytesEq rest) := rfl
  have hb : beginsSingleRangeForm s =
      (match dropLit "bytes=".toList s.toList with
       | none => false
       | some rest => formAfterBytesEq rest) := rfl
  rw [hg, hb]
  cases dropLit "bytes=".toList s.toList with
  | none => exact ⟨rfl, fun _ => rfl⟩
  | some rest => exact parseAfterBytesEq_spec rest

/-- C5 amended, witnessed on a value that lacks the `bytes=` opening. -/
theorem c5_range_fallback_witness :
    get_range (some "0-99,200-299") = (false, 0, none) :=
  (c5_range_fallback "0-99,200-299").2 (by decide)

/-- C6 (violated by the code): when ffprobe exits 0 but its output describes
no audio stream, `probe` persists nothing — but instead of returning `None`
it executes `return audio_type` with `audio_type` never assigned, raising
`UnboundLocalError`. -/
theorem c6_probe_no_audio_raises :
    probe [] "/media/movie.mkv" 0 "  Stream #0:0: Video: h264, yuv420p" =
      (.exn "UnboundLocalError", []) ∧
    (PyResult.exn "UnboundLocalError" : PyResult (Option String)) ≠ .ok none := by
  decide

/-- C7 (violated by the code): when the remux subprocess produces no output
file, `extract_audio` returns `None` and writes no record, but it never sets
the completion event: in the two-task scenario (extractor plus one waiter,
remux failing) the waiter is still suspended in `wait()` afterwards, the
in-flight entry remains with its event unset, and the caller's
`assert cache_path` raises. -/
theorem c7_failed_extract_leaves_waiters_blocked :
    finishExtract "/media/movie.mkv" movieCacheFile false uncachedWorld =
      (uncachedWorld, none) ∧
    (runSched "/media/movie.mkv" movieCacheFile false [0, 1, 0, 1]
        uncachedWorld [.ready, .ready]).1.running = [("/media/movie.mkv", false)] ∧
    (runSched "/media/movie.mkv" movieCacheFile false [0, 1, 0, 1]
        uncachedWorld [.ready, .ready]).1.db = uncachedWorld.db ∧
    (runSched "/media/movie.mkv" movieCacheFile false [0, 1, 0, 1]
        uncachedWorld [.ready, .ready]).2 =
      [.errored, .waitEvt ⟨"aac", "0:1", none⟩] := by
  decide

/-- C8: on every nonempty list of parsed audio streams, selection returns the
first stream whose annotation contains `eng` if one exists, otherwise the
first stream with an empty annotation if one exists, otherwise the first
stream in file order. -/
theorem c8_stream_selection (ms : List StreamMatch) (hne : ms ≠ []) :
    (∀ m, ms.find? (fun x => containsEng x.annot) = some m → selectStream ms = some m) ∧
    (ms.find? (fun x => containsEng x.annot) = none →
      ∀ m, ms.find? (fun x => x.annot = "") = some m → selectStream ms = some m) ∧
    (ms.find? (fun x => containsEng x.annot) = none →
      ms.find? (fun x => x.annot = "") = none → selectStream ms = ms.head?) := by
  match ms, hne with
  | m :: tl, _ =>
    refine ⟨?_, ?_, ?_⟩
    · intro r hr
      simp [selectStream, hr]
    · intro h1 r hr
      simp [selectStream, h1, hr]
    · intro h1 h2
      simp [selectStream, h1, h2]

/-- C8, witnessed on the three probe outputs of the claim: `0:1 (eng)` beats
`0:2 (fre)`; the annotation-free `0:2` beats `0:1 (fre)`; a lone `0:1 (fre)`
is selected by file order. -/
theorem c8_stream_selection_witness :
    selectStream engFreStreams = some ⟨"0:1", "(eng)", "aac"⟩ ∧
    selectStream freNoneStreams = some ⟨"0:2", "", "mp3"⟩ ∧
    selectStream freOnlyStreams = some ⟨"0:1", "(fre)", "aac"⟩ :=
  ⟨(c8_stream_selection engFreStreams (by decide)).1 _ (by decide),
   (c8_stream_selection freNoneStreams (by decide)).2.1 (by decide) _ (by decide),
   ((c8_stream_selection freOnlyStreams (by decide)).2.2 (by decide) (by decide)).trans
     (by decide)⟩

/-- One cached `get_path` call: with a recorded cache path whose file exists
and no extraction in flight, the call touches the file and returns the path,
changing nothing else and launching no subprocess. -/
theorem getPath_cached_step (p cf cp : String) (ok : Bool) (it : Item) (w : World)
    (hdb : w.db.lookup p = some it) (hc : it.cache = some cp) (hne : cp ≠ "")
    (hf : cp ∈ w.files) (hr : w.running.lookup p = none) :
    stepTask p cf ok w .ready = ({ w with touched := cp :: w.touched }, .finished (some cp)) := by
  simp [stepTask, hdb, hr, afterCacheCheck, hc, hne, hf]

/-- C9: once a cache path is recorded and its file exists (and no extraction
is in flight), any number `n` of repeated `get_path` calls each return that
same path and refresh its access timestamp; the table, the cache directory,
the in-flight map and — in particular — the subprocess count are unchanged. -/
theorem c9_idempotent_cached (p cf cp : String) (ok : Bool) (it : Item) (n : Nat) (w : World)
    (hdb : w.db.lookup p = some it) (hc : it.cache = some cp) (hne : cp ≠ "")
    (hf : cp ∈ w.files) (hr : w.running.lookup p = none) :
    repeatGetPath p cf ok n w =
      ({ w with touched := List.replicate n cp ++ w.touched },
       List.replicate n (TState.finished (some cp))) := by
  induction n generalizing w with
  | zero => simp [repeatGetPath]
  | succ n ih =>
    have hstep := getPath_cached_step p cf cp ok it w hdb hc hne hf hr
    have hrec := ih { w with touched := cp :: w.touched } hdb hf hr
    rw [repeatGetPath, hstep, hrec]
    refine Prod.ext ?_ ?_
    · simp [List.replicate_succ', List.append_assoc]
    · simp [List.replicate_succ]

/-- C9, witnessed by two sequential calls against the cached world. -/
theorem c9_idempotent_witness :
    repeatGetPath "/media/movie.mkv" movieCacheFile true 2 cachedWorld =
      ({ cachedWorld with touched := List.replicate 2 movieCacheFile ++ cachedWorld.touched },
       List.replicate 2 (TState.finished (some movieCacheFile))) :=
  c9_idempotent_cached "/media/movie.mkv" movieCacheFile movieCacheFile true
    ⟨"aac", "0:1", some movieCacheFile⟩ 2 cachedWorld (by decide) rfl (by decide)
    (by decide) (by decide)

/-- C10: a `HEAD` request for an audio item answers 200 before the playable
path is resolved: for *every* engine state and every `get_path` resolver, the
resolver is not invoked and the engine state (metadata store, in-flight map,
cache directory) is returned unchanged. -/
theorem c10_head_request {σ : Type} (st : σ) (gp : σ → Option String × σ)
    (mediaType : String) (rangeHeader : Option String) (it : CatItem)
    (ha : it.isAudioItem = true) :
    handle_media "HEAD" mediaType rangeHeader (some it) gp st = (.okHead, st) := by
  simp [handle_media, ha]

/-- C10, witnessed with a resolver that would mutate the state and resolve a
path: the response is still 200 with the state untouched. -/
theorem c10_head_request_witness :
    handle_media "HEAD" "media" none (some ⟨true, none, 1000, some "audio/aac"⟩)
      (fun n : Nat => (some "resolved", n + 7)) 0 = (.okHead, 0) :=
  c10_head_request 0 (fun n : Nat => (some "resolved", n + 7)) "media" none
    ⟨true, none, 1000, some "audio/aac"⟩ rfl

end MediaServer
